import Mathlib

/-!
Shallow embedding of the change-point / event-impact analysis engine of the
brent-oil-price-analysis repository, together with theorems settling the
frozen claims about it.

Conventions of the embedding:
* Calendar dates are modelled as integers (day numbers); a price series is a
  `List (ℤ × ℚ)` of (date, price) pairs in index order, mirroring a pandas
  DataFrame with a datetime index and a price column.
* Machine floats are modelled by exact rationals.  A float value that is not
  finite (NaN or ±∞, produced in the source by `0/0`, division by a zero
  mean, or `pandas` statistics of an empty/singleton window) is modelled by
  `none` in an `Option ℚ` field.
* Python exceptions are modelled by `Except PyError`; a function that cannot
  raise is total.
* `numpy.log` is a transcendental function on floats; the return transformer
  is therefore parametrised by an arbitrary `log : ℚ → ℝ`, every verified
  property of it being independent of the interpretation of `log`.
-/

namespace BrentOil

/-- Python exception classes reachable from the embedded code.  `keyError`
models `KeyError` raised by `pandas.Index.get_loc` on a missing date and
`linAlgError` models `numpy.linalg.LinAlgError` raised by `np.linalg.inv` on a
singular matrix.  `singularMatrixError` models the `SingularMatrixError` class
that the specification names; no such class exists anywhere in the repository
and no code path produces it — it is declared only so that the spec's claim
about it can be stated and compared with the code's behaviour. -/
inductive PyError where
  | keyError : PyError
  | linAlgError : PyError
  | singularMatrixError : PyError
deriving DecidableEq

/-- Decidable equality on `Except`, so that concrete runs of the fallible
embedded functions can be evaluated inside closed proofs. -/
instance instDecEqExcept [DecidableEq ε] [DecidableEq α] :
    DecidableEq (Except ε α) := fun x y =>
  match x, y with
  | Except.ok a, Except.ok b =>
    if h : a = b then isTrue (by rw [h])
    else isFalse (fun hh => h (Except.ok.injEq a b ▸ hh))
  | Except.error a, Except.error b =>
    if h : a = b then isTrue (by rw [h])
    else isFalse (fun hh => h (Except.error.injEq a b ▸ hh))
  | Except.ok _, Except.error _ => isFalse (fun hh => Except.noConfusion hh)
  | Except.error _, Except.ok _ => isFalse (fun hh => Except.noConfusion hh)

/-- Arithmetic mean, `pandas.Series.mean` / `numpy.mean`.  The source only
applies it to windows it has checked to be non-empty, except inside
`_find_event_correlations` where the empty case (a NaN in the source) is
guarded by the caller `eventImpactAt` below. -/
def mean (xs : List ℚ) : ℚ := xs.sum / xs.length

/-- Sample variance with `ddof = 1`, the square of `pandas.Series.std()`.
`pandas` returns NaN for windows of fewer than two observations, modelled by
`none`.  The source reports the standard deviation, i.e. the square root of
this value; the embedding keeps the square, which is exactly representable. -/
def sampleVar (xs : List ℚ) : Option ℚ :=
  if xs.length < 2 then none
  else some (((xs.map (fun x => (x - mean xs) ^ 2)).sum) / (xs.length - 1))

/-- Python list slicing `l[a:b]` (as in `DataFrame.iloc[a:b]`): the elements at
indices `a ≤ k < b`, truncated to the available data. -/
def pySlice (l : List α) (a b : ℕ) : List α := (l.drop a).take (b - a)

/-- Position of a date in the series index: `pandas.Index.get_loc`, which on
the unique, sorted index used by the source returns the position of the first
(only) match and raises `KeyError` when the date is absent (modelled by
`none` at the call sites, which turn it into `Except`). -/
def getLoc : List (ℤ × ℚ) → ℤ → Option ℕ
  | [], _ => none
  | p :: ps, d => if p.1 = d then some 0 else (getLoc ps d).map (· + 1)

/-- The price column of the series. -/
def pricesOf (series : List (ℤ × ℚ)) : List ℚ := series.map Prod.snd

/-- The pre-event window `iloc[max(0, i - w) : i]` used (with `w = 30` where
hard-coded) by `event_study_analysis`, `_find_event_correlations`,
`_compute_impact_measures`, `volatility_analysis` and
`cumulative_impact_analysis`.  Natural subtraction `i - w` is exactly
Python's `max(0, i - w)`. -/
def preWindow (ps : List ℚ) (i w : ℕ) : List ℚ := pySlice ps (i - w) i

/-- The post-event window `iloc[i : min(N, i + w)]` used by the same five
call sites; it contains the observation at the event index itself. -/
def postWindow (ps : List ℚ) (i w : ℕ) : List ℚ :=
  pySlice ps i (min ps.length (i + w))

/-- Index set of the pre-event window: `[max(0, i - w), i)`. -/
def preWindowIdx (i w : ℕ) : Finset ℕ := Finset.Ico (i - w) i

/-- Index set of the post-event window: `[i, min (N, i + w))`. -/
def postWindowIdx (n i w : ℕ) : Finset ℕ := Finset.Ico i (min n (i + w))

/-- Percentage change `((post - pre) / pre) * 100`.  A zero base is a float
division by zero in the source (±∞ or NaN, never an exception), modelled by
`none`. -/
def pctChange (pre post : ℚ) : Option ℚ :=
  if pre = 0 then none else some ((post - pre) / pre * 100)

/-! ### Return Transformer

`BayesianChangePointAnalysis.__init__` / `ImpactAnalysis.__init__`:
`np.log(data['price'] / data['price'].shift(1)).dropna()`.  The shifted ratio
at position `t ≥ 1` is `price[t] / price[t-1]`; position `0` is NaN and is
the one row removed by `dropna` (for the positive prices the data model
admits, no other row is NaN). -/

/-- The list of consecutive price ratios `price[t] / price[t-1]`,
`t = 1, …, N-1`. -/
def priceRatios : List ℚ → List ℚ
  | [] => []
  | [_] => []
  | p0 :: p1 :: ps => (p1 / p0) :: priceRatios (p1 :: ps)

/-- The log-return sequence of the source, parametrised by the
interpretation of `np.log`. -/
def logReturnsWith (log : ℚ → ℝ) (prices : List ℚ) : List ℝ :=
  (priceRatios prices).map log

/-- The Return Transformer contract exactly as the specification words it
(an `InsufficientDataError` on fewer than two points); written down only to
be compared against the source's `logReturnsWith`, which raises nothing. -/
def logReturnsSpec (log : ℚ → ℝ) (prices : List ℚ) : Except String (List ℝ) :=
  if prices.length < 2 then Except.error "InsufficientDataError"
  else Except.ok (logReturnsWith log prices)

/-! ### Change-Point Model Builder: segment assignment

`BayesianChangePointAnalysis._get_segment_indices`:
`segment_idx = pt.sum(idxs[None, :] >= changepoints[:, None], axis=0)` —
for each index the number of change-point locations not exceeding it. -/

/-- Segment assignment of index `i`: the sum over all change-point locations
of the indicator `i ≥ c`, as computed by `_get_segment_indices`. -/
def segmentAssignment (changepoints : List ℤ) (i : ℤ) : ℕ :=
  (changepoints.map (fun c => if c ≤ i then 1 else 0)).sum

/-! ### Two-sample t test

`scipy.stats.ttest_ind(pre, post)` with the default `equal_var=True`:
`t = (mean(a) - mean(b)) / sqrt(sp2 * (1/n1 + 1/n2))` with the pooled
variance `sp2 = (ss_a + ss_b) / (n1 + n2 - 2)`, and the two-sided p-value
`2 * sf(|t|, n1 + n2 - 2)`.  scipy evaluates the division under
`np.errstate(divide='ignore', invalid='ignore')`, so a zero denominator
yields an infinite `t` (p-value exactly `0.0`) when the means differ and NaN
(p-value NaN) when they do not; no exception is raised on degenerate input. -/

/-- The exactly-representable content of a `ttest_ind` result: `zero` means
the t statistic is infinite and the two-sided p-value is exactly `0.0`;
`nan` means t and p are NaN (`0/0`, an empty sample, or zero degrees of
freedom); `finite num den2` records `t = num / sqrt den2` with `den2 > 0`,
whose p-value is a transcendental of the Student-t distribution. -/
inductive TTestP where
  | zero : TTestP
  | nan : TTestP
  | finite : ℚ → ℚ → TTestP
deriving DecidableEq

/-- `scipy.stats.ttest_ind` reduced to its exactly-representable content. -/
def ttestIndP (xs ys : List ℚ) : TTestP :=
  if xs.length = 0 ∨ ys.length = 0 ∨ xs.length + ys.length ≤ 2 then TTestP.nan
  else
    let m1 := mean xs
    let m2 := mean ys
    let ss1 := (xs.map (fun x => ((x - m1) ^ 2 : ℚ))).sum
    let ss2 := (ys.map (fun y => ((y - m2) ^ 2 : ℚ))).sum
    let sp2 := (ss1 + ss2) / ((xs.length : ℚ) + ys.length - 2)
    let den2 := sp2 * ((1 : ℚ) / xs.length + 1 / ys.length)
    if den2 = 0 then (if m1 = m2 then TTestP.nan else TTestP.zero)
    else TTestP.finite (m1 - m2) den2

/-- The source's `significant = p_value < 0.05` flag.  An infinite t gives
`p = 0.0 < 0.05 = True`; a NaN p gives `nan < 0.05 = False`; for a finite
nonzero t the p-value is a transcendental float the embedding does not
evaluate, recorded as `none` (no verified claim inspects that branch). -/
def significantOfT : TTestP → Option Bool
  | TTestP.zero => some true
  | TTestP.nan => some false
  | TTestP.finite _ _ => none

/-! ### Impact Quantifier: `ImpactAnalysis.event_study_analysis` -/

/-- One element of `event_study_results`.  The volatility fields are kept as
variances (squares of the reported standard deviations, see `sampleVar`);
the derived `volatility_change_pct`, `t_statistic` and `p_value` floats are
irrational in general and are represented through `preVar`/`postVar` and
`significant`.  The `event_type`/`event_description` metadata copied from
the catalog is omitted. -/
structure EventStudyRecord where
  eventDate : ℤ
  preMean : ℚ
  postMean : ℚ
  priceChangePct : Option ℚ
  preVar : Option ℚ
  postVar : Option ℚ
  significant : Option Bool
deriving DecidableEq

/-- `ImpactAnalysis.event_study_analysis`: for each catalogued event date,
only if that exact date occurs in the price index, take the pre/post windows
around its position and, only if both are non-empty, emit a record of window
statistics and the two-sample t test.  Events whose date is not in the index
and events with an empty window are skipped without any marker. -/
def eventStudy (series : List (ℤ × ℚ)) (events : List ℤ) (w : ℕ) :
    List EventStudyRecord :=
  match events with
  | [] => []
  | d :: ds =>
    (match getLoc series d with
     | none => []
     | some i =>
       let ps := pricesOf series
       let pre := preWindow ps i w
       let post := postWindow ps i w
       if 0 < pre.length ∧ 0 < post.length then
         [⟨d, mean pre, mean post, pctChange (mean pre) (mean post),
           sampleVar pre, sampleVar post,
           significantOfT (ttestIndP pre post)⟩]
       else []) ++ eventStudy series ds w

/-! ### Event Correlator: `BayesianChangePointAnalysis._find_event_correlations` -/

/-- One element of the `correlations` list built by
`_find_event_correlations`: the pair of dates, their absolute day distance,
and the percentage price change around the event (`event_impact`).  The
source computes no `correlation_strength` field.  Catalog metadata
(`event_type`, `event_description`) is omitted. -/
structure Correlation where
  cpDate : ℤ
  eventDate : ℤ
  distanceDays : ℤ
  eventImpact : Option ℚ
deriving DecidableEq

/-- `event_impact` of `_find_event_correlations`: percentage change of the
mean price between the 30-observation windows before and after the event's
position.  An empty window makes `pandas` return a NaN mean (and a NaN
impact), modelled by `none`, as is the float division by a zero pre mean. -/
def eventImpactAt (series : List (ℤ × ℚ)) (i : ℕ) : Option ℚ :=
  let ps := pricesOf series
  let pre := preWindow ps i 30
  let post := postWindow ps i 30
  if pre.length = 0 ∨ post.length = 0 then none
  else pctChange (mean pre) (mean post)

/-- The body of the inner loop of `_find_event_correlations` for one
(change point, event) pair: the pair is retained iff its absolute day
distance is at most the hard-coded 30; for a retained pair the source then
calls `self.data.index.get_loc(event['date'])`, which raises `KeyError`
when the event date is not a trading date. -/
def correlatePair (series : List (ℤ × ℚ)) (cp e : ℤ) :
    Except PyError (Option Correlation) :=
  if |cp - e| ≤ 30 then
    match getLoc series e with
    | none => Except.error PyError.keyError
    | some i => Except.ok (some ⟨cp, e, |cp - e|, eventImpactAt series i⟩)
  else Except.ok none

/-- The inner loop of `_find_event_correlations`: one change point against
the whole catalog, in catalog order. -/
def correlateWithEvents (series : List (ℤ × ℚ)) (cp : ℤ) :
    List ℤ → Except PyError (List Correlation)
  | [] => Except.ok []
  | e :: es => do
    let r ← correlatePair series cp e
    let rest ← correlateWithEvents series cp es
    match r with
    | none => Except.ok rest
    | some c => Except.ok (c :: rest)

/-- `_find_event_correlations`: the nested loop, change points outer and
catalog events inner; records are appended in iteration order and the
resulting list is never sorted. -/
def findEventCorrelations (series : List (ℤ × ℚ)) :
    List ℤ → List ℤ → Except PyError (List Correlation)
  | [], _ => Except.ok []
  | cp :: cps, events => do
    let here ← correlateWithEvents series cp events
    let rest ← findEventCorrelations series cps events
    Except.ok (here ++ rest)

/-- The output ordering that the specification demands of the Event
Correlator: non-increasing `correlation_strength = 1 / (1 + days_difference)`
along the emitted list.  Stated over the source's records to compare the
claim with the code's actual output order. -/
def strengthSortedDesc : List Correlation → Bool
  | [] => true
  | [_] => true
  | a :: b :: rest =>
    decide ((1 : ℚ) / (1 + a.distanceDays) ≥ 1 / (1 + b.distanceDays)) &&
      strengthSortedDesc (b :: rest)

/-! ### `BayesianChangePointAnalysis._compute_impact_measures` -/

/-- One element of the `impacts` list of `_compute_impact_measures`: window
means and variances around a detected change point (`volatility_change`,
a ratio of standard deviations, is irrational in general and is represented
through the variances; `price_change` is kept exactly). -/
structure ImpactRecord where
  cpDate : ℤ
  priceChange : Option ℚ
  preMean : ℚ
  postMean : ℚ
  preVar : Option ℚ
  postVar : Option ℚ
deriving DecidableEq

/-- `_compute_impact_measures`: for each change-point date, look up its
position (`get_loc` raises `KeyError` on a date missing from the index —
callers only pass dates taken from the index), take the 30-observation
pre/post windows and, only if both are non-empty, emit an impact record;
otherwise the change point is silently dropped. -/
def computeImpactMeasures (series : List (ℤ × ℚ)) :
    List ℤ → Except PyError (List ImpactRecord)
  | [] => Except.ok []
  | cp :: cps =>
    match getLoc series cp with
    | none => Except.error PyError.keyError
    | some i => do
      let rest ← computeImpactMeasures series cps
      let ps := pricesOf series
      let pre := preWindow ps i 30
      let post := postWindow ps i 30
      if 0 < pre.length ∧ 0 < post.length then
        Except.ok (⟨cp, pctChange (mean pre) (mean post), mean pre, mean post,
          sampleVar pre, sampleVar post⟩ :: rest)
      else Except.ok rest

/-! ### Cross-event regression: `ImpactAnalysis.regression_analysis`

Design matrix `X` with three columns — intercept, the 0/1 event indicator,
and the time index — over the `n` log returns.  The source solves by
`np.linalg.lstsq` (which never raises on rank deficiency), then calls
`np.linalg.inv(X.T @ X)` for the coefficient covariance; on a singular Gram
matrix that call raises `numpy.linalg.LinAlgError` — there is no check
before the inversion and no `SingularMatrixError` anywhere in the code. -/

/-- Row `i` of the design matrix: `[1, event_indicator[i], i]`. -/
def designRow (e : List ℚ) (i : ℕ) : Fin 3 → ℚ := ![1, e.getD i 0, (i : ℚ)]

/-- The Gram matrix `X.T @ X` of the design matrix over `n` observations. -/
def gram (n : ℕ) (e : List ℚ) : Matrix (Fin 3) (Fin 3) ℚ :=
  Matrix.of fun a b => ∑ i ∈ Finset.range n, designRow e i a * designRow e i b

/-- `X.T @ y`. -/
def xty (y e : List ℚ) : Fin 3 → ℚ :=
  fun a => ∑ i ∈ Finset.range y.length, designRow e i a * y.getD i 0

/-- Explicit inverse of a 3×3 rational matrix via the adjugate — the value
`np.linalg.inv` returns on a non-singular input. -/
def invMat3 (A : Matrix (Fin 3) (Fin 3) ℚ) : Matrix (Fin 3) (Fin 3) ℚ :=
  A.det⁻¹ • A.adjugate

/-- The exactly-representable regression outputs: the OLS coefficients and
R².  The standard errors, t statistics and p-values the source also reports
are square roots and Student-t tail probabilities of these rationals, not
inspected by any verified claim. -/
structure RegResult where
  beta : Fin 3 → ℚ
  rSquared : Option ℚ
deriving DecidableEq

/-- `ImpactAnalysis.regression_analysis`, reduced to its observable
behaviour: everything before the `np.linalg.inv` call is exception-free
float arithmetic whose results are discarded when the inversion raises, so
the run fails with `LinAlgError` exactly when the Gram matrix is singular,
and otherwise returns the least-squares solution (which for a non-singular
Gram matrix is the unique normal-equations solution `(XᵗX)⁻¹ Xᵗ y` that
`lstsq` computes) and R² (`none` models the NaN of a zero total sum of
squares). -/
def regressionAnalysis (y e : List ℚ) : Except PyError RegResult :=
  let XtX := gram y.length e
  if XtX.det = 0 then Except.error PyError.linAlgError
  else
    let beta := (invMat3 XtX).mulVec (xty y e)
    let pred := fun i => ∑ j : Fin 3, designRow e i j * beta j
    let ssRes := ∑ i ∈ Finset.range y.length, (y.getD i 0 - pred i) ^ 2
    let ssTot := ∑ i ∈ Finset.range y.length, (y.getD i 0 - mean y) ^ 2
    Except.ok ⟨beta, if ssTot = 0 then none else some (1 - ssRes / ssTot)⟩

/-! ### Diagnostics Checker -/

/-- The result of `BayesianChangePointAnalysis._compute_diagnostics`: the
per-parameter potential-scale-reduction statistics (`az.rhat`), the
per-parameter effective sample sizes (`az.ess`) and the divergence count,
passed through from the sampler backend unreduced. -/
structure Diagnostics where
  rHat : List ℚ
  ess : List ℚ
  divergences : ℕ
deriving DecidableEq

/-- Modelled from the spec: the body of `ChangePointAnalyzer.check_convergence`
is not under `src/` — only its caller (`backend/app.py`, the `'converged'`
field of the run-change-point endpoint) is.  Per the specification it is the
conjunction over all parameters of the strict check `r_hat < 1.1`. -/
def checkConvergence (d : Diagnostics) : Bool :=
  d.rHat.all (fun r => decide (r < 11 / 10))

/-! ### Posterior Reducer -/

/-- Insert into a sorted list, ascending. -/
def insertSorted (x : ℚ) : List ℚ → List ℚ
  | [] => [x]
  | y :: ys => if x ≤ y then x :: y :: ys else y :: insertSorted x ys

/-- Ascending insertion sort, used to take order statistics. -/
def sortAsc : List ℚ → List ℚ
  | [] => []
  | x :: xs => insertSorted x (sortAsc xs)

/-- `numpy.median`: the middle order statistic of a list of odd length, the
average of the two middle order statistics of a list of even length. -/
def npMedian (xs : List ℚ) : ℚ :=
  let s := sortAsc xs
  if s.length % 2 = 1 then s.getD (s.length / 2) 0
  else (s.getD (s.length / 2 - 1) 0 + s.getD (s.length / 2) 0) / 2

/-- Modelled from the spec: the single-point-estimate reduction of
`ChangePointAnalyzer.analyze_change_points` is not under `src/` — only its
callers (`run_analysis.py`, `backend/app.py`, which consume its single
`change_point_date`) are.  Per the specification, the point estimate is the
median of the flattened location draws across all chains, rounded to the
nearest index and clamped to `[0, N-1]` for a return sequence of length `N`. -/
def pointEstimate (draws : List ℚ) (n : ℕ) : ℤ :=
  max 0 (min ((n : ℤ) - 1) (round (npMedian draws)))

/-! ### Concrete inputs used by the closed theorems -/

/-- The round-trip example series of the specification: prices
`[100, 100, 100, 120, 120, 120]` on six consecutive days. -/
def series6 : List (ℤ × ℚ) :=
  [(0, 100), (1, 100), (2, 100), (3, 120), (4, 120), (5, 120)]

/-- Ten consecutive days at a constant price of 50. -/
def series10 : List (ℤ × ℚ) := (List.range 10).map (fun k => ((k : ℤ), (50 : ℚ)))

/-! ### Helper lemmas shared by the claim theorems -/

/-- Length of a Python slice. -/
theorem pySlice_length (l : List α) (a b : ℕ) :
    (pySlice l a b).length = min b l.length - a := by
  simp only [pySlice, List.length_take, List.length_drop]
  omega

/-- Length of the pre-event window. -/
theorem preWindow_length (ps : List ℚ) (i w : ℕ) :
    (preWindow ps i w).length = min i ps.length - (i - w) := by
  rw [preWindow, pySlice_length]

/-- Length of the post-event window. -/
theorem postWindow_length (ps : List ℚ) (i w : ℕ) :
    (postWindow ps i w).length = min ps.length (i + w) - i := by
  rw [postWindow, pySlice_length]
  omega

/-- Length of the ratio sequence: one less than the number of prices. -/
theorem priceRatios_length : ∀ ps : List ℚ,
    (priceRatios ps).length = ps.length - 1
  | [] => rfl
  | [_] => rfl
  | p0 :: p1 :: ps => by
    have ih := priceRatios_length (p1 :: ps)
    simp only [priceRatios, List.length_cons] at ih ⊢
    omega

/-- Entry `t` of the ratio sequence is `price[t+1] / price[t]`. -/
theorem priceRatios_getElem? : ∀ (ps : List ℚ) (t : ℕ), t + 1 < ps.length →
    (priceRatios ps)[t]? = some (ps.getD (t + 1) 0 / ps.getD t 0)
  | [], t, h => by simp at h
  | [_], t, h => by simp at h
  | p0 :: p1 :: ps, 0, _ => by simp [priceRatios]
  | p0 :: p1 :: ps, t + 1, h => by
    have ih := priceRatios_getElem? (p1 :: ps) t (by
      simp only [List.length_cons] at h ⊢
      omega)
    simpa [priceRatios] using ih

/-- Inner loop of `_find_event_correlations`, characterised: when every
catalog event within tolerance of `cp` has its date in the index, the loop
succeeds and emits, in catalog order, exactly the events within tolerance. -/
theorem correlateWithEvents_spec (series : List (ℤ × ℚ)) (cp : ℤ) :
    ∀ evs : List ℤ,
    (∀ e ∈ evs, |cp - e| ≤ 30 → (getLoc series e).isSome) →
    ∃ l, correlateWithEvents series cp evs = Except.ok l ∧
      l.map (fun c => (c.cpDate, c.eventDate, c.distanceDays)) =
        (evs.filter (fun e => decide (|cp - e| ≤ 30))).map
          (fun e => (cp, e, |cp - e|))
  | [], _ => ⟨[], rfl, rfl⟩
  | e :: es, h => by
    obtain ⟨l, hl, hmap⟩ := correlateWithEvents_spec series cp es
      (fun e' he' hd => h e' (List.mem_cons_of_mem _ he') hd)
    by_cases hd : |cp - e| ≤ 30
    · have hs := h e (List.mem_cons_self _ _) hd
      obtain ⟨i, hi⟩ := Option.isSome_iff_exists.mp hs
      refine ⟨⟨cp, e, |cp - e|, eventImpactAt series i⟩ :: l, ?_, ?_⟩
      · simp [correlateWithEvents, correlatePair, hd, hi, hl, Bind.bind,
          Except.bind]
      · simp [hmap, hd]
    · refine ⟨l, ?_, ?_⟩
      · simp [correlateWithEvents, correlatePair, hd, hl, Bind.bind,
          Except.bind]
      · simp [hmap, hd]

/-! ### Claim theorems -/

/-- C1 (counterexample): on a one-point price sequence the source's return
transformer does not fail with `InsufficientDataError` — it raises nothing
and produces an empty return sequence, while the spec's contract demands the
error. -/
theorem c1_no_insufficient_data_error :
    logReturnsWith (fun _ => (0 : ℝ)) [100] = [] ∧
    logReturnsSpec (fun _ => (0 : ℝ)) [100] =
      Except.error "InsufficientDataError" :=
  ⟨rfl, rfl⟩

/-- C1 (amended): for every price sequence and every interpretation of
`np.log`, the return transformer produces exactly `N - 1` log returns, the
`t`-th (0-based) equal to `log (price[t+1] / price[t])`; in particular a
sequence of fewer than two points yields the empty return sequence, with no
exception raised. -/
theorem c1_log_returns_length_and_values (log : ℚ → ℝ) (ps : List ℚ) :
    (logReturnsWith log ps).length = ps.length - 1 ∧
    ∀ t, t + 1 < ps.length →
      (logReturnsWith log ps)[t]? = some (log (ps.getD (t + 1) 0 / ps.getD t 0)) := by
  constructor
  · simp [logReturnsWith, priceRatios_length]
  · intro t h
    simp [logReturnsWith, priceRatios_getElem? ps t h]

/-- C1 (witness): the amended theorem evaluated on the two-point sequence
`[100, 110]`. -/
theorem c1_witness :
    (logReturnsWith (fun _ => (0 : ℝ)) [100, 110]).length = 1 ∧
    (logReturnsWith (fun _ => (0 : ℝ)) [100, 110])[0]? = some 0 := by
  have h := c1_log_returns_length_and_values (fun _ => (0 : ℝ)) [100, 110]
  refine ⟨h.1, ?_⟩
  simpa using h.2 0 (by norm_num)

/-- C2: the segment assignment `_get_segment_indices` computes for index `i`
equals the number of change-point locations `≤ i`, and is monotone in the
index. -/
theorem c2_segment_assignment_count_monotone (cps : List ℤ) (i j : ℤ)
    (hij : i ≤ j) :
    segmentAssignment cps i =
      (cps.filter (fun c => decide (c ≤ i))).length ∧
    segmentAssignment cps i ≤ segmentAssignment cps j := by
  constructor
  · induction cps with
    | nil => rfl
    | cons c cs ih =>
      by_cases h : c ≤ i <;>
        simp [segmentAssignment, List.filter_cons, h] at ih ⊢ <;>
        omega
  · induction cps with
    | nil => exact le_refl _
    | cons c cs ih =>
      simp only [segmentAssignment, List.map_cons, List.sum_cons] at ih ⊢
      have hstep : (if c ≤ i then (1 : ℕ) else 0) ≤ (if c ≤ j then 1 else 0) := by
        by_cases h : c ≤ i
        · simp [h, le_trans h hij]
        · simp [h]
      omega

/-- C2 (witness): the theorem evaluated at locations `[2, 5]` and indices
`3 ≤ 6`. -/
theorem c2_witness :
    segmentAssignment [2, 5] 3 =
      (([2, 5] : List ℤ).filter (fun c => decide (c ≤ 3))).length ∧
    segmentAssignment [2, 5] 3 ≤ segmentAssignment [2, 5] 6 :=
  c2_segment_assignment_count_monotone [2, 5] 3 6 (by norm_num)

/-- C3: the (spec-modelled) posterior point estimate is the median of the
flattened draws rounded to the nearest index, clamped to `[0, N-1]`: it
always lies in that range, and whenever the rounded median is already a
valid index the estimate equals it. -/
theorem c3_point_estimate_median_clamped (draws : List ℚ) (n : ℕ)
    (hn : 1 ≤ n) :
    0 ≤ pointEstimate draws n ∧ pointEstimate draws n ≤ (n : ℤ) - 1 ∧
    (0 ≤ round (npMedian draws) → round (npMedian draws) ≤ (n : ℤ) - 1 →
      pointEstimate draws n = round (npMedian draws)) := by
  unfold pointEstimate
  refine ⟨le_max_left _ _, ?_, ?_⟩
  · have h1 : (0 : ℤ) ≤ (n : ℤ) - 1 := by omega
    exact max_le h1 (min_le_left _ _)
  · intro h0 hle
    rw [min_eq_right hle, max_eq_right h0]

/-- C3 (witness): the theorem evaluated on the draws `[1, 2, 10]` over a
return sequence of length 5 (median 2, already a valid index). -/
theorem c3_witness :
    0 ≤ pointEstimate [1, 2, 10] 5 ∧
    pointEstimate [1, 2, 10] 5 ≤ ((5 : ℕ) : ℤ) - 1 ∧
    (0 ≤ round (npMedian [1, 2, 10]) →
      round (npMedian [1, 2, 10]) ≤ ((5 : ℕ) : ℤ) - 1 →
      pointEstimate [1, 2, 10] 5 = round (npMedian [1, 2, 10])) :=
  c3_point_estimate_median_clamped [1, 2, 10] 5 (by norm_num)

/-- C4 (counterexample): `_find_event_correlations` attaches no
`correlation_strength` (only `days_difference` and an `event_impact` price
change) and does not sort: with one change point at day 5 and catalog events
at days 0 and 9 (distances 5 and 4) it emits the pairs in catalog order,
which is not descending in `1 / (1 + days_difference)`. -/
theorem c4_output_not_sorted_by_strength :
    findEventCorrelations series10 [5] [0, 9] =
      Except.ok [⟨5, 0, 5, none⟩, ⟨5, 9, 4, some 0⟩] ∧
    strengthSortedDesc [⟨5, 0, 5, none⟩, ⟨5, 9, 4, some 0⟩] = false := by
  constructor
  · norm_num [findEventCorrelations, correlateWithEvents, correlatePair,
      getLoc, series10, eventImpactAt, pricesOf, preWindow, postWindow,
      pySlice, mean, pctChange, List.range_succ, Bind.bind, Except.bind]
  · norm_num [strengthSortedDesc]

/-- C4 (amended): provided every event within tolerance of a change point
has its date in the price index (otherwise `get_loc` raises `KeyError`),
`_find_event_correlations` succeeds and retains a (change point, event)
pair if and only if their absolute day distance is at most the hard-coded
tolerance of 30, attaching `days_difference`; the output is in nested
iteration order (change points outer, catalog order inner), with no
`correlation_strength` field and no sorting. -/
theorem c4_retention_and_order (series : List (ℤ × ℚ)) (cps evs : List ℤ)
    (h : ∀ cp ∈ cps, ∀ e ∈ evs, |cp - e| ≤ 30 → (getLoc series e).isSome) :
    ∃ l, findEventCorrelations series cps evs = Except.ok l ∧
      l.map (fun c => (c.cpDate, c.eventDate, c.distanceDays)) =
        cps.flatMap (fun cp =>
          (evs.filter (fun e => decide (|cp - e| ≤ 30))).map
            (fun e => (cp, e, |cp - e|))) := by
  induction cps with
  | nil => exact ⟨[], rfl, rfl⟩
  | cons cp cps ih =>
    obtain ⟨l1, hl1, hm1⟩ := correlateWithEvents_spec series cp evs
      (fun e he hd => h cp (List.mem_cons_self _ _) e he hd)
    obtain ⟨l2, hl2, hm2⟩ := ih
      (fun cp' hcp' e he hd => h cp' (List.mem_cons_of_mem _ hcp') e he hd)
    refine ⟨l1 ++ l2, ?_, ?_⟩
    · simp [findEventCorrelations, hl1, hl2, Bind.bind, Except.bind]
    · simp [hm1, hm2]

/-- C4 (witness): the amended theorem evaluated on ten constant-price days,
one change point at day 5 and events at days 0 and 9. -/
theorem c4_witness :
    ∃ l, findEventCorrelations series10 [5] [0, 9] = Except.ok l ∧
      l.map (fun c => (c.cpDate, c.eventDate, c.distanceDays)) =
        ([5] : List ℤ).flatMap (fun cp =>
          (([0, 9] : List ℤ).filter (fun e => decide (|cp - e| ≤ 30))).map
            (fun e => (cp, e, |cp - e|))) :=
  c4_retention_and_order series10 [5] [0, 9] (by
    intro cp hcp e he hd
    fin_cases hcp
    fin_cases he <;> norm_num [getLoc, series10, List.range_succ])

/-- C5 (counterexample): an event whose exact date is not a trading date of
the series is skipped by `event_study_analysis` — no nearest-trading-date
lookup happens and no statistics are produced for it: an event on day 10
over a series covering days 0–5 yields no record at all. -/
theorem c5_nontrading_event_skipped : eventStudy series6 [10] 30 = [] := by
  norm_num [eventStudy, getLoc, series6]

/-- C5 (amended): only for an event whose exact date is a trading date does
the event study compute the fixed-size pre/post windows around that date's
position and produce the mean/variance/percentage-change statistics (the
pre window being non-empty exactly when the position is positive); events
dated off the trading calendar produce nothing. -/
theorem c5_trading_date_event_record (series : List (ℤ × ℚ)) (d : ℤ)
    (i w : ℕ) (hloc : getLoc series d = some i) (hi : 0 < i)
    (hiN : i < series.length) (hw : 0 < w) :
    eventStudy series [d] w =
      [⟨d, mean (preWindow (pricesOf series) i w),
        mean (postWindow (pricesOf series) i w),
        pctChange (mean (preWindow (pricesOf series) i w))
          (mean (postWindow (pricesOf series) i w)),
        sampleVar (preWindow (pricesOf series) i w),
        sampleVar (postWindow (pricesOf series) i w),
        significantOfT (ttestIndP (preWindow (pricesOf series) i w)
          (postWindow (pricesOf series) i w))⟩] := by
  have hlen : (pricesOf series).length = series.length := by simp [pricesOf]
  have hpre : 0 < (preWindow (pricesOf series) i w).length := by
    rw [preWindow_length]; omega
  have hpost : 0 < (postWindow (pricesOf series) i w).length := by
    rw [postWindow_length]; omega
  simp [eventStudy, hloc, hpre, hpost]

/-- C5 (witness): the amended theorem evaluated on the six-day series with
an event on trading day 3. -/
theorem c5_witness :
    eventStudy series6 [3] 30 =
      [⟨3, mean (preWindow (pricesOf series6) 3 30),
        mean (postWindow (pricesOf series6) 3 30),
        pctChange (mean (preWindow (pricesOf series6) 3 30))
          (mean (postWindow (pricesOf series6) 3 30)),
        sampleVar (preWindow (pricesOf series6) 3 30),
        sampleVar (postWindow (pricesOf series6) 3 30),
        significantOfT (ttestIndP (preWindow (pricesOf series6) 3 30)
          (postWindow (pricesOf series6) 3 30))⟩] :=
  c5_trading_date_event_record series6 3 3 30
    (by norm_num [getLoc, series6]) (by norm_num) (by norm_num [series6])
    (by norm_num)

/-- C6: the round-trip example.  On prices `[100, 100, 100, 120, 120, 120]`
over six consecutive days with an event on day 3 (index 3), the event study
produces exactly one record with pre-window mean 100, post-window mean 120
and `price_change_pct = 20`, both window variances 0, and the two-sample t
test over `[100, 100, 100]` vs `[120, 120, 120]` — zero within-group
variance — yields an infinite t statistic (p-value exactly 0), so
`significant = True`; nothing raises. -/
theorem c6_round_trip_example :
    eventStudy series6 [3] 30 =
      [⟨3, 100, 120, some 20, some 0, some 0, some true⟩] ∧
    ttestIndP [100, 100, 100] [120, 120, 120] = TTestP.zero ∧
    significantOfT TTestP.zero = some true := by
  refine ⟨?_, ?_, rfl⟩
  · norm_num [eventStudy, getLoc, series6, pricesOf, preWindow, postWindow,
      pySlice, mean, sampleVar, pctChange, ttestIndP, significantOfT]
  · norm_num [ttestIndP, mean]

/-- C7 (counterexample): for a change point at index 0 of the six-day
series, `_compute_impact_measures` raises nothing, but instead of flagging
the empty before-window as insufficient data it silently drops the change
point: the result carries no record (and hence no marker) at all. -/
theorem c7_index_zero_dropped_no_marker :
    computeImpactMeasures series6 [0] = Except.ok [] := by
  norm_num [computeImpactMeasures, getLoc, series6, pricesOf, preWindow,
    postWindow, pySlice, Bind.bind, Except.bind]

/-- C7 (amended): for every series and change-point date located at index 0,
computing the impact measures never throws — the before window is empty and
the change point is silently dropped from the output, with no
insufficient-data marker emitted. -/
theorem c7_index_zero_no_throw_no_record (series : List (ℤ × ℚ)) (cp : ℤ)
    (hloc : getLoc series cp = some 0) :
    computeImpactMeasures series [cp] = Except.ok [] := by
  have hpre : (preWindow (pricesOf series) 0 30).length = 0 := by
    rw [preWindow_length]; omega
  simp [computeImpactMeasures, hloc, hpre, Bind.bind, Except.bind]

/-- C7 (witness): the amended theorem evaluated on ten constant-price days
with the change point on the first day. -/
theorem c7_witness : computeImpactMeasures series10 [0] = Except.ok [] :=
  c7_index_zero_no_throw_no_record series10 0
    (by norm_num [getLoc, series10, List.range_succ])

/-- C8 (counterexample): with two observations and three parameters the Gram
matrix is singular and the regression fails — but with `numpy`'s
`LinAlgError` raised by the `np.linalg.inv` call itself, which is not the
`SingularMatrixError` the claim names (no such class exists in the code). -/
theorem c8_singular_fails_with_linalgerror :
    regressionAnalysis [1, 2] [0, 1] = Except.error PyError.linAlgError ∧
    PyError.linAlgError ≠ PyError.singularMatrixError := by
  constructor
  · norm_num [regressionAnalysis, gram, designRow, Matrix.det_fin_three,
      Finset.sum_range_succ]
  · decide

/-- C8 (amended): for every design matrix whose Gram matrix `XᵗX` is
singular (e.g. fewer observations than parameters), the cross-event
regression fails with `numpy.linalg.LinAlgError`, raised by the
`np.linalg.inv(X.T @ X)` call itself — there is no detection before the
inversion is attempted and no `SingularMatrixError`. -/
theorem c8_singular_gram_raises_at_inversion (y e : List ℚ)
    (h : (gram y.length e).det = 0) :
    regressionAnalysis y e = Except.error PyError.linAlgError := by
  simp [regressionAnalysis, h]

/-- C8 (witness): the amended theorem evaluated on three observations with
an all-zero event indicator (a rank-2 Gram matrix). -/
theorem c8_witness :
    regressionAnalysis [1, 2, 3] [0, 0, 0] = Except.error PyError.linAlgError :=
  c8_singular_gram_raises_at_inversion [1, 2, 3] [0, 0, 0] (by
    norm_num [gram, designRow, Matrix.det_fin_three, Finset.sum_range_succ])

/-- C9: the (spec-modelled) convergence gate is the conjunction over all
parameters of the strict check `r_hat < 1.1`: it returns `true` exactly when
every per-parameter statistic is strictly below 1.1, so a statistic of
exactly 1.1 is classified as not converged while 1.099999 is converged. -/
theorem c9_converged_strict_boundary :
    (∀ d : Diagnostics, checkConvergence d = true ↔ ∀ r ∈ d.rHat, r < 11 / 10) ∧
    checkConvergence ⟨[11 / 10], [], 0⟩ = false ∧
    checkConvergence ⟨[1099999 / 1000000], [], 0⟩ = true := by
  refine ⟨fun d => ?_, ?_, ?_⟩
  · simp [checkConvergence, List.all_eq_true]
  · norm_num [checkConvergence]
  · norm_num [checkConvergence]

/-- C10: in every pre/post window computation the pre window covers the
index interval `[max(0, i-w), i)` and the post window `[i, min(N, i+w))`:
the two are disjoint, the event/change-point index itself lies in the post
window and never in the pre window, each window holds at most `w`
observations, and the windows the embedded code actually slices out of a
length-`N` price list have exactly those index sets' sizes. -/
theorem c10_window_invariants (n i w : ℕ) (hiN : i < n) (hw : 0 < w) :
    Disjoint (preWindowIdx i w) (postWindowIdx n i w) ∧
    i ∈ postWindowIdx n i w ∧ i ∉ preWindowIdx i w ∧
    (preWindowIdx i w).card ≤ w ∧ (postWindowIdx n i w).card ≤ w ∧
    ∀ ps : List ℚ, ps.length = n →
      (preWindow ps i w).length = (preWindowIdx i w).card ∧
      (postWindow ps i w).length = (postWindowIdx n i w).card := by
  refine ⟨Finset.Ico_disjoint_Ico_consecutive _ _ _, ?_, ?_, ?_, ?_, ?_⟩
  · simp only [postWindowIdx, Finset.mem_Ico]
    omega
  · simp only [preWindowIdx, Finset.mem_Ico]
    omega
  · simp only [preWindowIdx, Nat.card_Ico]
    omega
  · simp only [postWindowIdx, Nat.card_Ico]
    omega
  · intro ps hps
    constructor
    · rw [preWindow_length, preWindowIdx, Nat.card_Ico]
      omega
    · rw [postWindow_length, postWindowIdx, Nat.card_Ico, hps]

/-- C10 (witness): the window invariants evaluated at `N = 6`, `i = 3`,
`w = 30` (the windows of the round-trip example). -/
theorem c10_witness :
    Disjoint (preWindowIdx 3 30) (postWindowIdx 6 3 30) ∧
    3 ∈ postWindowIdx 6 3 30 ∧ 3 ∉ preWindowIdx 3 30 ∧
    (preWindowIdx 3 30).card ≤ 30 ∧ (postWindowIdx 6 3 30).card ≤ 30 ∧
    ∀ ps : List ℚ, ps.length = 6 →
      (preWindow ps 3 30).length = (preWindowIdx 3 30).card ∧
      (postWindow ps 3 30).length = (postWindowIdx 6 3 30).card :=
  c10_window_invariants 6 3 30 (by norm_num) (by norm_num)

end BrentOil

